import Mathlib

/-!
# GitPulse — verification of the URL parser and query orchestrator

Shallow embedding of `src/apps/web/src/App.tsx`.

The app's only non-presentational logic is:
* `parseGitHubRepositoryUrl` — validates a GitHub repository URL into an
  owner/repo pair (App.tsx lines 32–66);
* `formatWeekLabel` — renders a unix-seconds timestamp as `MM/YY` in local
  time (lines 68–74);
* `handleSubmit` — the two-call network flow with per-status branching and
  the health-score derivation (lines 89–185).

The parser delegates URL syntax to the platform's WHATWG `new URL`.  We model
the fragment of the WHATWG URL parser that the claims exercise: tab/newline
removal and C0/space trimming of the input, scheme parsing with ASCII
lowercasing, authority splitting (userinfo, host, port), ASCII lowercasing of
special-scheme hosts, and path extraction.  Omitted (not exercised by any
claim, and explicitly out of the spec's scope): percent-decoding, IDNA beyond
ASCII lowercasing, dot-segment normalization, IPv6 bracket hosts (the model
rejects them; the app rejects them too since `[...]` is never `github.com`).

Numbers are modelled exactly: HTTP statuses as `ℕ`, timestamps as `ℤ`
milliseconds/seconds, and the health score over `ℚ` (the JS doubles are exact
at every value the claims evaluate).
-/

namespace GitPulse

/-! ## Character classes and string helpers (JS / WHATWG semantics) -/

/-- ASCII alphabetic character, as used by the WHATWG scheme grammar. -/
def isAsciiAlpha (c : Char) : Bool :=
  ('a' ≤ c && c ≤ 'z') || ('A' ≤ c && c ≤ 'Z')

/-- A character allowed after the first one in a URL scheme. -/
def isSchemeChar (c : Char) : Bool :=
  isAsciiAlpha c || c.isDigit || c = '+' || c = '-' || c = '.'

/-- C0 control or space: stripped from both ends of a URL parser input. -/
def isC0ControlOrSpace (c : Char) : Bool :=
  c.toNat ≤ 32

/-- Whitespace removed by JavaScript `String.prototype.trim`
(ASCII whitespace plus the common Unicode space/line separators). -/
def isJsWhitespace (c : Char) : Bool :=
  c.toNat = 9 || c.toNat = 10 || c.toNat = 11 || c.toNat = 12 ||
  c.toNat = 13 || c.toNat = 32 || c.toNat = 160 || c.toNat = 0x2028 ||
  c.toNat = 0x2029 || c.toNat = 0xFEFF

/-- `value.trim()` of JavaScript, on a character list. -/
def jsTrimList (cs : List Char) : List Char :=
  ((cs.dropWhile isJsWhitespace).reverse.dropWhile isJsWhitespace).reverse

/-- `value.trim()` of JavaScript. -/
def jsTrim (s : String) : String :=
  ⟨jsTrimList s.data⟩

/-- Strip leading and trailing C0 controls and spaces (WHATWG URL parser,
step 1 of the basic URL parser). -/
def trimC0Space (cs : List Char) : List Char :=
  ((cs.dropWhile isC0ControlOrSpace).reverse.dropWhile isC0ControlOrSpace).reverse

/-! ## WHATWG URL model -/

/-- The fields of a parsed URL object that `App.tsx` reads: `protocol`
(scheme with trailing colon), `hostname`, and `pathname`. -/
structure URLRecord where
  protocol : String
  hostname : String
  pathname : String
deriving DecidableEq, Repr

/-- Special schemes of the WHATWG URL standard. -/
def isSpecialScheme (s : List Char) : Bool :=
  s = "http".data || s = "https".data || s = "ws".data ||
  s = "wss".data || s = "ftp".data || s = "file".data

/-- Scheme parsing: an ASCII alpha followed by scheme characters, terminated
by `:`.  Returns the scheme (without the colon) and the remainder.  A missing
or ill-formed scheme makes the whole parse fail (no base URL to fall back on). -/
def takeScheme : List Char → List Char → Option (List Char × List Char)
  | acc, c :: rest =>
      if c = ':' then some (acc.reverse, rest)
      else if isSchemeChar c then takeScheme (c :: acc) rest
      else none
  | _, [] => none

/-- Split a URL input at its scheme. -/
def splitScheme : List Char → Option (List Char × List Char)
  | c :: rest => if isAsciiAlpha c then takeScheme [c] rest else none
  | [] => none

/-- A character that terminates the authority component. -/
def isAuthorityEnd (special : Bool) (c : Char) : Bool :=
  c = '/' || c = '?' || c = '#' || (special && c = '\\')

/-- The host[:port] part of an authority: everything after the last `@`
(anything before it is userinfo). -/
def afterLastAt (cs : List Char) : List Char :=
  (cs.reverse.takeWhile (fun c => c ≠ '@')).reverse

/-- Numeric value of a digit string. -/
def digitsVal (cs : List Char) : Nat :=
  cs.foldl (fun a c => a * 10 + (c.toNat - 48)) 0

/-- A port component is valid when it is all digits and, if non-empty, at
most 65535. -/
def validPort (cs : List Char) : Bool :=
  cs.all Char.isDigit && (cs = [] || digitsVal cs ≤ 65535)

/-- Code points the WHATWG standard forbids in a (non-IPv6) host. -/
def isForbiddenHostChar (c : Char) : Bool :=
  c.toNat = 0 || c = ' ' || c = '#' || c = '/' || c = ':' || c = '<' ||
  c = '>' || c = '?' || c = '@' || c = '[' || c = '\\' || c = ']' ||
  c = '^' || c = '|'

/-- Pathname extraction: the remainder after the authority, cut at `?` or
`#`; for special schemes backslashes read as slashes and an empty path
renders as `/`. -/
def parsePath (special : Bool) (rem : List Char) : List Char :=
  let p := rem.takeWhile (fun c => c ≠ '?' && c ≠ '#')
  let p := if special then p.map (fun c => if c = '\\' then '/' else c) else p
  if special && p = [] then ['/'] else p

/-- Parse the authority (userinfo, host, port) and path of a URL whose
scheme has already been consumed.  `scheme` is already lowercased. -/
def parseAuthority (scheme rest : List Char) : Option URLRecord :=
  let special := isSpecialScheme scheme
  let auth := rest.takeWhile (fun c => !isAuthorityEnd special c)
  let rem := rest.dropWhile (fun c => !isAuthorityEnd special c)
  let hostPort := afterLastAt auth
  let host := hostPort.takeWhile (fun c => c ≠ ':')
  let port := (hostPort.dropWhile (fun c => c ≠ ':')).drop 1
  if !validPort port then none
  else if host.any isForbiddenHostChar then none
  else
    let host := if special then host.map Char.toLower else host
    if host = [] && special && scheme ≠ "file".data then none
    else some ⟨⟨scheme ++ [':']⟩, ⟨host⟩, ⟨parsePath special rem⟩⟩

/-- Model of the platform's `new URL(input)` (no base URL): `none` models a
thrown `TypeError`.  Schemes are lowercased; for special schemes every
leading slash or backslash before the authority is skipped; a non-special
scheme takes an authority only after a literal `//`, otherwise its path is
opaque. -/
def urlParse (input : String) : Option URLRecord :=
  let cs := input.data.filter (fun c => c ≠ '\t' && c ≠ '\n' && c ≠ '\r')
  let cs := trimC0Space cs
  match splitScheme cs with
  | none => none
  | some (rawScheme, rest) =>
    let scheme := rawScheme.map Char.toLower
    if isSpecialScheme scheme then
      parseAuthority scheme (rest.dropWhile (fun c => c = '/' || c = '\\'))
    else if rest.take 2 = ['/', '/'] then
      parseAuthority scheme (rest.drop 2)
    else
      some ⟨⟨scheme ++ [':']⟩, "", ⟨rest.takeWhile (fun c => c ≠ '?' && c ≠ '#')⟩⟩

/-! ## The URL parser of App.tsx (lines 32–66) -/

/-- `ParsedRepo` of App.tsx. -/
structure ParsedRepo where
  owner : String
  repo : String
deriving DecidableEq, Repr

/-- `pathname.split('/')` — JavaScript `String.prototype.split` with a
single-character separator. -/
def splitOnSlash : List Char → List (List Char)
  | [] => [[]]
  | c :: rest =>
      if c = '/' then [] :: splitOnSlash rest
      else
        match splitOnSlash rest with
        | [] => [[c]]
        | h :: t => (c :: h) :: t

/-- `rawRepo.endsWith('.git')`. -/
def endsWithGit (cs : List Char) : Bool :=
  match cs.reverse with
  | 't' :: 'i' :: 'g' :: '.' :: _ => true
  | _ => false

/-- `rawRepo.slice(0, -4)`. -/
def dropLast4 (cs : List Char) : List Char :=
  (cs.reverse.drop 4).reverse

/-- `parseGitHubRepositoryUrl` of App.tsx, line for line: trim; empty →
null; `new URL` failure → null; protocol must be `https:` and hostname
`github.com`; split the pathname on `/`, drop empty segments, keep the first
two; strip one trailing `.git` from the repo segment; reject if owner or
repo is empty. -/
def parseGitHubRepositoryUrl (value : String) : Option ParsedRepo :=
  let normalized := jsTrim value
  if normalized.data = [] then none
  else
    match urlParse normalized with
    | none => none
    | some parsedUrl =>
      if parsedUrl.protocol ≠ "https:" ∨ parsedUrl.hostname ≠ "github.com" then
        none
      else
        match ((splitOnSlash parsedUrl.pathname.data).filter (fun s => s ≠ [])).take 2 with
        | owner :: rawRepo :: _ =>
          let repo := if endsWithGit rawRepo then dropLast4 rawRepo else rawRepo
          if owner = [] ∨ repo = [] then none
          else some ⟨⟨owner⟩, ⟨repo⟩⟩
        | _ => none

/-! ## Week label formatting (App.tsx lines 68–74)

`formatWeekLabel` builds `new Date(timestampInSeconds * 1000)` and reads
`getMonth()`/`getFullYear()`, which interpret the instant in the
environment's local calendar.  The model takes the local timezone's offset
from UTC (in seconds) as an explicit first parameter. -/

/-- Civil date (year, month 1–12, day 1–31) of a day count relative to
1970-01-01, by the standard Gregorian era decomposition. -/
def civilFromDays (z : ℤ) : ℤ × ℤ × ℤ :=
  let z := z + 719468
  let era := Int.fdiv z 146097
  let doe := z - era * 146097
  let yoe := (doe - doe / 1460 + doe / 36524 - doe / 146096) / 365
  let y := yoe + era * 400
  let doy := doe - (365 * yoe + yoe / 4 - yoe / 100)
  let mp := (5 * doy + 2) / 153
  let d := doy - (153 * mp + 2) / 5 + 1
  let m := mp + (if mp < 10 then 3 else -9)
  (y + (if m ≤ 2 then 1 else 0), m, d)

/-- `String(n).padStart(2, '0')`. -/
def padStart2 (s : String) : String :=
  if s.length = 0 then "00" else if s.length = 1 then "0" ++ s else s

/-- `s.slice(-2)`: the last two characters. -/
def sliceLast2 (s : String) : String :=
  ⟨(s.data.reverse.take 2).reverse⟩

/-- `formatWeekLabel` of App.tsx: zero-padded two-digit month, `/`, last two
digits of the year, of the local calendar date of the timestamp. -/
def formatWeekLabel (tzOffsetSeconds timestampInSeconds : ℤ) : String :=
  let localSeconds := timestampInSeconds + tzOffsetSeconds
  let days := Int.fdiv localSeconds 86400
  let c := civilFromDays days
  padStart2 (toString c.2.1) ++ "/" ++ sliceLast2 (toString c.1)

/-! ## Health score (App.tsx lines 132–138) -/

/-- `repositoryAgeInYears`: `Math.max((Date.now() - created_at_ms) /
(1000*60*60*24*365), 0.1)`, over ℚ.  Both timestamps are milliseconds since
the epoch (`created_at` as `new Date(data.created_at).getTime()` produces). -/
def repositoryAgeInYears (nowMs createdAtMs : ℤ) : ℚ :=
  max (((nowMs - createdAtMs : ℤ) : ℚ) / (1000 * 60 * 60 * 24 * 365)) (1 / 10)

/-- `Number(x.toFixed(2))`: round to two decimal places. -/
def toFixed2 (x : ℚ) : ℚ :=
  (round (x * 100) : ℚ) / 100

/-- The health score: `Number(((stargazers_count + forks_count) /
repositoryAgeInYears).toFixed(2))`. -/
def healthScore (stars forks nowMs createdAtMs : ℤ) : ℚ :=
  toFixed2 ((stars + forks : ℚ) / repositoryAgeInYears nowMs createdAtMs)

/-! ## The submission flow (App.tsx lines 89–185) -/

/-- The JSON body fields of the primary lookup that the code reads;
`created_at` is carried as the milliseconds value its ISO string parses to. -/
structure RepoJson where
  full_name : String
  description : Option String
  stargazers_count : ℤ
  forks_count : ℤ
  language : Option String
  created_at : ℤ
deriving DecidableEq, Repr

/-- One element of the commit-activity response. -/
structure WeekData where
  week : ℤ
  total : ℤ
deriving DecidableEq, Repr

/-- `RepositoryData` of App.tsx. -/
structure RepositoryData where
  fullName : String
  description : String
  stars : ℤ
  forks : ℤ
  language : String
  healthScore : ℚ
deriving DecidableEq, Repr

/-- `CommitActivityPoint` of App.tsx. -/
structure CommitActivityPoint where
  week : String
  commits : ℤ
deriving DecidableEq, Repr

/-- Result of one `fetch`: an HTTP response with a status and (already
decoded) body, or a transport-level failure (a thrown exception). -/
inductive FetchResult (β : Type) where
  | response (status : ℕ) (body : β)
  | failure
deriving DecidableEq

/-- `response.ok`: status in the inclusive range 200–299. -/
def statusOk (status : ℕ) : Bool :=
  200 ≤ status && status < 300

def validationMessage : String :=
  "Informe uma URL válida de repositório público do GitHub."

def notFoundMessage : String :=
  "Repositório não encontrado ou indisponível publicamente."

def rateLimitedMessage : String :=
  "Limite de requisições do GitHub atingido. Tente novamente em alguns minutos."

def upstreamErrorMessage : String :=
  "Não foi possível consultar o repositório agora."

def networkFailureMessage : String :=
  "Erro de rede ao consultar o GitHub. Verifique sua conexão e tente novamente."

def activityProcessingMessage : String :=
  "Atividade de commits ainda está sendo processada pelo GitHub. Tente novamente em instantes."

def activityUnavailableMessage : String :=
  "Não foi possível carregar a atividade de commits para este repositório."

def activityNetworkMessage : String :=
  "Erro de rede ao carregar a atividade de commits."

/-- The `setRepositoryData` argument on primary success (App.tsx lines
140–147): fallbacks for null `description`/`language` via `??`, the health
score derived from the body and the current time. -/
def primarySummary (data : RepoJson) (nowMs : ℤ) : RepositoryData where
  fullName := data.full_name
  description := data.description.getD "Sem descrição."
  stars := data.stargazers_count
  forks := data.forks_count
  language := data.language.getD "Não informada"
  healthScore := healthScore data.stargazers_count data.forks_count nowMs data.created_at

/-- The commit-activity mapping on secondary success (lines 171–174). -/
def formatCommitActivity (tzOffsetSeconds : ℤ) (items : List WeekData) :
    List CommitActivityPoint :=
  items.map fun weekData => ⟨formatWeekLabel tzOffsetSeconds weekData.week, weekData.total⟩

/-- The state written by one submission: the four `useState` cells that
`handleSubmit` can set after the initial reset, plus whether the secondary
(commit-activity) fetch was issued at all. -/
structure SubmitResult where
  errorMessage : String
  repositoryData : Option RepositoryData
  commitActivity : List CommitActivityPoint
  commitActivityMessage : String
  secondaryCalled : Bool
deriving DecidableEq

/-- `handleSubmit` of App.tsx as a function of the parsed repository and the
two injected fetch results.  Mirrors the code's order: reset; invalid URL →
validation message; primary 404 / 403 / other non-ok → their messages,
returning before any secondary call; primary transport failure caught by the
outer catch; on primary success the summary is set, then the secondary call
branches on 202 / non-ok / transport failure / success. -/
def handleSubmit (parsedRepository : Option ParsedRepo)
    (primary : FetchResult RepoJson) (secondary : FetchResult (List WeekData))
    (nowMs tzOffsetSeconds : ℤ) : SubmitResult :=
  match parsedRepository with
  | none => ⟨validationMessage, none, [], "", false⟩
  | some _ =>
    match primary with
    | .failure => ⟨networkFailureMessage, none, [], "", false⟩
    | .response status data =>
      if status = 404 then ⟨notFoundMessage, none, [], "", false⟩
      else if status = 403 then ⟨rateLimitedMessage, none, [], "", false⟩
      else if !statusOk status then ⟨upstreamErrorMessage, none, [], "", false⟩
      else
        let summary := primarySummary data nowMs
        match secondary with
        | .failure => ⟨"", some summary, [], activityNetworkMessage, true⟩
        | .response status2 items =>
          if status2 = 202 then ⟨"", some summary, [], activityProcessingMessage, true⟩
          else if !statusOk status2 then ⟨"", some summary, [], activityUnavailableMessage, true⟩
          else ⟨"", some summary, formatCommitActivity tzOffsetSeconds items, "", true⟩

/-! ## The spec's formulation of the health score, for comparison -/

/-- The age formula in the spec's words: `max((now - created_at) /
(365 days in milliseconds), 0.1)`. -/
def ageYears_specFormula (nowMs createdAtMs : ℤ) : ℚ :=
  max (((nowMs - createdAtMs : ℤ) : ℚ) / (365 * 24 * 60 * 60 * 1000)) (1 / 10)

/-- The health-score formula in the spec's words:
`round2((stargazers_count + forks_count) / ageYears)`. -/
def healthScore_specFormula (stars forks nowMs createdAtMs : ℤ) : ℚ :=
  toFixed2 ((stars + forks : ℚ) / ageYears_specFormula nowMs createdAtMs)

/-! ## Helper lemmas -/

/-- A string built from a non-empty character list is not the empty string. -/
theorem mk_ne_empty_of_ne_nil {cs : List Char} (h : cs ≠ []) : (⟨cs⟩ : String) ≠ "" :=
  fun hc => h (congrArg String.data hc)

end GitPulse

namespace GitPulse

/-! ## Claims -/

/-- C2: the parser accepts the canonical inputs:
`https://github.com/facebook/react` parses to owner `facebook`, repo
`react`, and `https://github.com/facebook/react.git` parses the same with
the trailing `.git` stripped. -/
theorem parse_accepts_canonical_inputs :
    parseGitHubRepositoryUrl "https://github.com/facebook/react" =
      some ⟨"facebook", "react"⟩ ∧
    parseGitHubRepositoryUrl "https://github.com/facebook/react.git" =
      some ⟨"facebook", "react"⟩ :=
  ⟨rfl, rfl⟩

/-- C3: the parser rejects the spec's negative inputs: an `http` scheme, a
`gitlab.com` host, and a URL with a single path segment. -/
theorem parse_rejects_negative_inputs :
    parseGitHubRepositoryUrl "http://github.com/a/b" = none ∧
    parseGitHubRepositoryUrl "https://gitlab.com/a/b" = none ∧
    parseGitHubRepositoryUrl "https://github.com/onlyowner" = none :=
  ⟨rfl, rfl, rfl⟩

/-- C4 counterexample: `https://GitHub.com/a/b` is accepted, not rejected
— the platform URL parser lowercases the host before the code's equality
check, so a host differing from `github.com` only in letter case passes. -/
theorem host_case_rejection_counterexample :
    parseGitHubRepositoryUrl "https://GitHub.com/a/b" = some ⟨"a", "b"⟩ :=
  rfl

/-- C4 (amended): host validation is literal string equality against the
hostname produced by URL parsing, which is lowercased during parsing: any
input whose parsed hostname differs from `github.com` is rejected, while
case differences in the host are erased before the comparison, so
`https://GitHub.com/a/b` is accepted. -/
theorem host_validation_is_normalized_equality :
    (∀ (s : String) (u : URLRecord), urlParse (jsTrim s) = some u →
      u.hostname ≠ "github.com" → parseGitHubRepositoryUrl s = none) ∧
    parseGitHubRepositoryUrl "https://GitHub.com/a/b" = some ⟨"a", "b"⟩ := by
  refine ⟨?_, rfl⟩
  intro s u hu hne
  unfold parseGitHubRepositoryUrl
  dsimp only
  split
  · rfl
  · rw [hu]
    dsimp only
    rw [if_pos (Or.inr hne)]

/-- C4 witness: a host other than `github.com` is rejected. -/
theorem host_validation_is_normalized_equality_witness :
    parseGitHubRepositoryUrl "https://codeberg.org/a/b" = none :=
  host_validation_is_normalized_equality.1 "https://codeberg.org/a/b"
    ⟨"https:", "codeberg.org", "/a/b"⟩ rfl (by decide)

/-- C5: the parser is total: every input yields either a rejection or an
owner/repo pair with both components non-empty; in particular the empty
string and whitespace-only strings are rejected. -/
theorem parse_total_and_nonempty :
    (∀ s : String, parseGitHubRepositoryUrl s = none ∨
      ∃ r : ParsedRepo, parseGitHubRepositoryUrl s = some r ∧
        r.owner ≠ "" ∧ r.repo ≠ "") ∧
    parseGitHubRepositoryUrl "" = none ∧
    parseGitHubRepositoryUrl "   " = none := by
  refine ⟨?_, rfl, rfl⟩
  intro s
  unfold parseGitHubRepositoryUrl
  dsimp only
  split
  · exact Or.inl rfl
  split
  · exact Or.inl rfl
  split
  · exact Or.inl rfl
  split
  · rename_i owner rawRepo tail heq
    generalize (if endsWithGit rawRepo = true then dropLast4 rawRepo else rawRepo) = repo
    split
    · exact Or.inl rfl
    · rename_i h
      push_neg at h
      exact Or.inr ⟨_, rfl, mk_ne_empty_of_ne_nil h.1, mk_ne_empty_of_ne_nil h.2⟩
  · exact Or.inl rfl

/-- C1: the health score matches the spec's formula — `ageYears = max((now -
created_at) / (365 days in ms), 0.1)` and `healthScore = round2((stars +
forks) / ageYears)` — and takes the spec's values: 150 for 100 stars, 50
forks, created exactly one 365-day year before now, and 100 for 10 stars,
0 forks, created at `now` (age floored to 0.1). -/
theorem healthScore_formula_and_examples :
    (∀ stars forks nowMs createdAtMs : ℤ,
      healthScore stars forks nowMs createdAtMs =
        healthScore_specFormula stars forks nowMs createdAtMs) ∧
    (∀ nowMs : ℤ,
      healthScore 100 50 nowMs (nowMs - 31536000000) = 150 ∧
      healthScore 10 0 nowMs nowMs = 100) := by
  refine ⟨fun stars forks nowMs createdAtMs => by
    norm_num [healthScore, healthScore_specFormula, repositoryAgeInYears,
      ageYears_specFormula], fun nowMs => ⟨?_, ?_⟩⟩
  · have h1 : ((nowMs - (nowMs - 31536000000) : ℤ) : ℚ) = 31536000000 := by
      push_cast; ring
    have hage : repositoryAgeInYears nowMs (nowMs - 31536000000) = 1 := by
      unfold repositoryAgeInYears
      rw [h1]
      norm_num
    unfold healthScore
    rw [hage]
    norm_num [toFixed2, round_eq]
  · have hage : repositoryAgeInYears nowMs nowMs = 1 / 10 := by
      unfold repositoryAgeInYears
      norm_num
    unfold healthScore
    rw [hage]
    norm_num [toFixed2, round_eq]

/-- C6: primary-lookup branching: 404 → the not-found message, 403 → the
rate-limit message, any other non-success status → the generic upstream
message, a transport failure → the network message; in all four cases no
repository summary is produced and the secondary call is never issued. -/
theorem primary_status_branching
    (r : ParsedRepo) (body : RepoJson) (secondary : FetchResult (List WeekData))
    (nowMs tz : ℤ) :
    handleSubmit (some r) (.response 404 body) secondary nowMs tz =
      ⟨notFoundMessage, none, [], "", false⟩ ∧
    handleSubmit (some r) (.response 403 body) secondary nowMs tz =
      ⟨rateLimitedMessage, none, [], "", false⟩ ∧
    (∀ status : ℕ, statusOk status = false → status ≠ 404 → status ≠ 403 →
      handleSubmit (some r) (.response status body) secondary nowMs tz =
        ⟨upstreamErrorMessage, none, [], "", false⟩) ∧
    handleSubmit (some r) .failure secondary nowMs tz =
      ⟨networkFailureMessage, none, [], "", false⟩ := by
  refine ⟨rfl, rfl, ?_, rfl⟩
  intro status h1 h2 h3
  simp [handleSubmit, h1, h2, h3]

/-- C6 witness: a 500 primary response yields the upstream-error message and
no secondary call. -/
theorem primary_status_branching_witness :
    handleSubmit (some ⟨"a", "b"⟩) (.response 500 ⟨"a/b", none, 0, 0, none, 0⟩)
      .failure 0 0 = ⟨upstreamErrorMessage, none, [], "", false⟩ :=
  (primary_status_branching ⟨"a", "b"⟩ ⟨"a/b", none, 0, 0, none, 0⟩ .failure 0 0).2.2.1
    500 (by decide) (by decide) (by decide)

/-- C7: whatever the secondary lookup's failure mode (202, other non-success
status, transport failure), the summary from the successful primary lookup
stays populated and unchanged, the activity series stays empty, and only the
activity message is set. -/
theorem secondary_failure_frame
    (r : ParsedRepo) (body : RepoJson) (status : ℕ) (hok : statusOk status = true)
    (items : List WeekData) (nowMs tz : ℤ) :
    handleSubmit (some r) (.response status body) (.response 202 items) nowMs tz =
      ⟨"", some (primarySummary body nowMs), [], activityProcessingMessage, true⟩ ∧
    (∀ status2 : ℕ, status2 ≠ 202 → statusOk status2 = false →
      handleSubmit (some r) (.response status body) (.response status2 items) nowMs tz =
        ⟨"", some (primarySummary body nowMs), [], activityUnavailableMessage, true⟩) ∧
    handleSubmit (some r) (.response status body) .failure nowMs tz =
      ⟨"", some (primarySummary body nowMs), [], activityNetworkMessage, true⟩ := by
  have h404 : status ≠ 404 := by rintro rfl; exact absurd hok (by decide)
  have h403 : status ≠ 403 := by rintro rfl; exact absurd hok (by decide)
  refine ⟨?_, ?_, ?_⟩
  · simp [handleSubmit, h404, h403, hok]
  · intro status2 h202 hok2
    simp [handleSubmit, h404, h403, hok, h202, hok2]
  · simp [handleSubmit, h404, h403, hok]

/-- C7 witness: a 500 secondary response leaves the primary summary intact
with an empty series and the unavailable message. -/
theorem secondary_failure_frame_witness :
    handleSubmit (some ⟨"a", "b"⟩) (.response 200 ⟨"a/b", none, 0, 0, none, 0⟩)
      (.response 500 []) 0 0 =
      ⟨"", some (primarySummary ⟨"a/b", none, 0, 0, none, 0⟩ 0), [],
        activityUnavailableMessage, true⟩ :=
  (secondary_failure_frame ⟨"a", "b"⟩ ⟨"a/b", none, 0, 0, none, 0⟩ 200 rfl [] 0 0).2.1
    500 (by decide) rfl

/-- C8: on secondary success each `{week, total}` maps to a point labelled
`formatWeekLabel week` with count `total`, preserving order and length, and
`formatWeekLabel` renders a timestamp whose local calendar date is
2024-03-15 as `03/24`. -/
theorem commit_activity_mapping :
    formatWeekLabel 0 1710460800 = "03/24" ∧
    (∀ (tz : ℤ) (items : List WeekData),
      (formatCommitActivity tz items).length = items.length ∧
      ∀ i : ℕ, (formatCommitActivity tz items)[i]? =
        items[i]?.map fun w => ⟨formatWeekLabel tz w.week, w.total⟩) ∧
    (∀ (r : ParsedRepo) (body : RepoJson) (status : ℕ), statusOk status = true →
      ∀ status2 : ℕ, status2 ≠ 202 → statusOk status2 = true →
      ∀ (items : List WeekData) (nowMs tz : ℤ),
        (handleSubmit (some r) (.response status body) (.response status2 items)
          nowMs tz).commitActivity = formatCommitActivity tz items) := by
  refine ⟨rfl, fun tz items => ⟨by simp [formatCommitActivity],
    fun i => by simp [formatCommitActivity, List.getElem?_map]⟩, ?_⟩
  intro r body status hok status2 h202 hok2 items nowMs tz
  have h404 : status ≠ 404 := by rintro rfl; exact absurd hok (by decide)
  have h403 : status ≠ 403 := by rintro rfl; exact absurd hok (by decide)
  simp [handleSubmit, h404, h403, hok, h202, hok2]

/-- C8 witness: a successful secondary response's items are mapped into the
rendered activity series. -/
theorem commit_activity_mapping_witness :
    (handleSubmit (some ⟨"a", "b"⟩) (.response 200 ⟨"a/b", none, 0, 0, none, 0⟩)
      (.response 200 [⟨1710460800, 5⟩]) 0 0).commitActivity =
      formatCommitActivity 0 [⟨1710460800, 5⟩] :=
  commit_activity_mapping.2.2 ⟨"a", "b"⟩ ⟨"a/b", none, 0, 0, none, 0⟩ 200 rfl
    200 (by decide) rfl [⟨1710460800, 5⟩] 0 0

/-- C9 counterexample: the fallback strings in the code are the Portuguese
`Sem descrição.` and `Não informada`, not the literal strings `no
description` and `unspecified` the claim names. -/
theorem fallback_strings_counterexample :
    (primarySummary ⟨"owner/repo", none, 1, 2, none, 0⟩ 31536000000).description =
      "Sem descrição." ∧
    (primarySummary ⟨"owner/repo", none, 1, 2, none, 0⟩ 31536000000).language =
      "Não informada" ∧
    (primarySummary ⟨"owner/repo", none, 1, 2, none, 0⟩ 31536000000).description ≠
      "no description" ∧
    (primarySummary ⟨"owner/repo", none, 1, 2, none, 0⟩ 31536000000).language ≠
      "unspecified" :=
  ⟨rfl, rfl, by decide, by decide⟩

/-- C9 (amended): a missing description is substituted by the fixed fallback
string `Sem descrição.` and a missing language by `Não informada`; present
values pass through, and `fullName`, `stars` and `forks` are taken directly
from `full_name`, `stargazers_count` and `forks_count`. -/
theorem primary_summary_fields (body : RepoJson) (nowMs : ℤ) :
    (primarySummary body nowMs).fullName = body.full_name ∧
    (primarySummary body nowMs).stars = body.stargazers_count ∧
    (primarySummary body nowMs).forks = body.forks_count ∧
    (body.description = none →
      (primarySummary body nowMs).description = "Sem descrição.") ∧
    (∀ d, body.description = some d → (primarySummary body nowMs).description = d) ∧
    (body.language = none →
      (primarySummary body nowMs).language = "Não informada") ∧
    (∀ l, body.language = some l → (primarySummary body nowMs).language = l) := by
  refine ⟨rfl, rfl, rfl, fun h => ?_, fun d h => ?_, fun h => ?_, fun l h => ?_⟩ <;>
    simp [primarySummary, h]

/-- C9 witness: a body with null description and language gets both
fallbacks. -/
theorem primary_summary_fields_witness :
    (primarySummary ⟨"o/r", none, 1, 2, none, 0⟩ 0).description = "Sem descrição." ∧
    (primarySummary ⟨"o/r", none, 1, 2, none, 0⟩ 0).language = "Não informada" :=
  ⟨(primary_summary_fields ⟨"o/r", none, 1, 2, none, 0⟩ 0).2.2.2.1 rfl,
    (primary_summary_fields ⟨"o/r", none, 1, 2, none, 0⟩ 0).2.2.2.2.2.1 rfl⟩

/-- C10: the `.git` suffix is stripped at most once and only as a suffix:
`x.git.git` becomes repo `x.git`, and a repo segment that is exactly `.git`
leaves an empty repo and is rejected. -/
theorem git_suffix_stripped_once :
    parseGitHubRepositoryUrl "https://github.com/owner/x.git.git" =
      some ⟨"owner", "x.git"⟩ ∧
    parseGitHubRepositoryUrl "https://github.com/owner/.git" = none :=
  ⟨rfl, rfl⟩

end GitPulse
